import Mathlib

/-!
Shallow embedding of the Transcription Session Controller implemented in
`src/pages/Index.tsx` (React single-page component).

The component owns three pieces of state: a boolean `isListening` flag, an
accumulated `transcript` string, and a ref to the browser speech-recognition
object (`recognitionRef`).  We embed the component's reachable runtime state
as the structure `World` below, and each handler of the source as a function
on `World`.  Browser-delivered notifications and user actions are the
constructors of `Event`; `step` dispatches an event the way the mounted
component would, and `run` folds a list of events.

React semantics that the embedding makes explicit:
  * The first `useEffect` has an empty dependency array, so it runs exactly
    once, right after the initial render.  Every closure it installs
    (`onresult`, `onerror`, `onend`) captures the *initial render's*
    `isListening` binding, which is `false`; later renders never re-install
    the handlers.  The field `mountCapturedListening` records that captured
    value.  (`setIsListening` and `setTranscript` are stable setters, so the
    functional updates inside the handlers do act on current state.)
  * The second `useEffect` has dependency `[isListening]`: it runs after the
    initial render and after every render in which `isListening` changed,
    calling `start()` or `stop()` on the recognition object when present.
    `syncEffect` embeds its body; it is applied at mount and after each
    change of `isListening`.
-/

namespace WhisperScribe

/-- A recognized speech segment as delivered by the capability:
`event.results[i][0].transcript` and `event.results[i].isFinal`. -/
structure Segment where
  text : String
  final : Bool
deriving DecidableEq, Repr

/-- A toast notification as produced by `toast({title, description, ...})`. -/
structure Toast where
  title : String
  description : String
deriving DecidableEq, Repr

/-- The component's React state: `isListening` and `transcript`. -/
structure AppState where
  isListening : Bool
  transcript : String
deriving DecidableEq, Repr

/-- The mounted component together with the observable effects on its
external collaborators (capability start/stop calls, toasts, clipboard,
triggered downloads). -/
structure World where
  /-- Whether the browser supports `SpeechRecognition`. -/
  supported : Bool
  /-- Whether `recognitionRef.current` is non-null. -/
  hasRecognition : Bool
  /-- The `isListening` value captured by the closures installed in the
  mount-time `useEffect` (empty dependency array): the initial render's
  value. Read by `onend`. -/
  mountCapturedListening : Bool
  app : AppState
  /-- Number of `recognitionRef.current.start()` invocations so far. -/
  startCalls : Nat
  /-- Number of `recognitionRef.current.stop()` invocations so far. -/
  stopCalls : Nat
  /-- Toasts shown so far, in order. -/
  toasts : List Toast
  /-- Last text written with `navigator.clipboard.writeText`, if any. -/
  clipboard : Option String
  /-- Files offered for download so far: (filename, contents). -/
  downloads : List (String × String)
deriving DecidableEq, Repr

/-- `useState(false)` / `useState("")`. -/
def initialApp : AppState :=
  { isListening := false, transcript := "" }

/-- The toast shown by the mount effect when the browser lacks
`SpeechRecognition`. -/
def unsupportedToast : Toast :=
  { title := "Speech Recognition Not Supported",
    description := "Your browser does not support speech recognition." }

/-- Body of the `useEffect` with dependency `[isListening]`:
`if (isListening && ref) ref.start(); else if (!isListening && ref) ref.stop()`. -/
def syncEffect (w : World) : World :=
  if w.app.isListening && w.hasRecognition then
    { w with startCalls := w.startCalls + 1 }
  else if !w.app.isListening && w.hasRecognition then
    { w with stopCalls := w.stopCalls + 1 }
  else
    w

/-- The component right after mounting: the first effect either shows the
"not supported" toast (leaving the ref null) or creates the recognition
object and installs the handlers; then the `[isListening]` effect runs once
with the initial state. -/
def mount (supported : Bool) : World :=
  if supported then
    syncEffect
      { supported := true, hasRecognition := true,
        mountCapturedListening := initialApp.isListening,
        app := initialApp, startCalls := 0, stopCalls := 0,
        toasts := [], clipboard := none, downloads := [] }
  else
    { supported := false, hasRecognition := false,
      mountCapturedListening := initialApp.isListening,
      app := initialApp, startCalls := 0, stopCalls := 0,
      toasts := [unsupportedToast], clipboard := none, downloads := [] }

/-- The loop body of `onresult`: accumulate `interimTranscript` and
`finalTranscript` over the delivered results. Returns
(interimTranscript, finalTranscript). -/
def processResults (results : List Segment) : String × String :=
  results.foldl
    (fun acc s =>
      if s.final then (acc.1, acc.2 ++ s.text) else (acc.1 ++ s.text, acc.2))
    ("", "")

/-- `onresult`: `setTranscript(prev => prev + finalTranscript)`; the interim
accumulator is rendered nowhere and discarded. -/
def onresult (results : List Segment) (w : World) : World :=
  { w with app :=
      { w.app with
        transcript := w.app.transcript ++ (processResults results).2 } }

/-- `onerror`: toast "Error" with description
`"Speech recognition error: " ++ code`, then `setIsListening(false)`.
When `isListening` actually changes, the `[isListening]` effect re-runs. -/
def onerror (code : String) (w : World) : World :=
  let w1 : World :=
    { w with
      toasts := w.toasts ++
        [{ title := "Error",
           description := "Speech recognition error: " ++ code }],
      app := { w.app with isListening := false } }
  if w.app.isListening then syncEffect w1 else w1

/-- `onend`: `if (isListening) recognitionRef.current?.start()` — but the
`isListening` read here is the one captured at mount time
(`mountCapturedListening`), not the current state. -/
def onend (w : World) : World :=
  if w.mountCapturedListening && w.hasRecognition then
    { w with startCalls := w.startCalls + 1 }
  else
    w

/-- `handleToggleListening`: `setIsListening(!isListening)`, after which the
`[isListening]` effect runs (the value always changes). -/
def handleToggleListening (w : World) : World :=
  syncEffect { w with app := { w.app with isListening := !w.app.isListening } }

/-- `handleCopyText`: if the transcript is non-empty (JS truthiness), write
it to the clipboard and toast "Copied". -/
def handleCopyText (w : World) : World :=
  if w.app.transcript = "" then
    w
  else
    { w with
      clipboard := some w.app.transcript,
      toasts := w.toasts ++
        [{ title := "Copied",
           description := "Transcript copied to clipboard" }] }

/-- `handleDownloadText`: if the transcript is non-empty, offer a text file
named `transcript-<date>.txt` containing the transcript.  `date` stands for
`new Date().toISOString().split('T')[0]`, an external input. -/
def handleDownloadText (date : String) (w : World) : World :=
  if w.app.transcript = "" then
    w
  else
    { w with
      downloads := w.downloads ++
        [("transcript-" ++ date ++ ".txt", w.app.transcript)] }

/-- `handleClearText`: `setTranscript("")`. -/
def handleClearText (w : World) : World :=
  { w with app := { w.app with transcript := "" } }

/-- The notifications and user actions the mounted component reacts to. -/
inductive Event where
  | toggle
  | result (segs : List Segment)
  | error (code : String)
  | ended
  | clear
  | copy
  | download (date : String)
deriving DecidableEq, Repr

/-- Dispatch one event.  Capability notifications (`result`, `error`,
`ended`) can only be delivered when the recognition object exists. -/
def step (w : World) : Event → World
  | Event.toggle => handleToggleListening w
  | Event.result segs => if w.hasRecognition then onresult segs w else w
  | Event.error code => if w.hasRecognition then onerror code w else w
  | Event.ended => if w.hasRecognition then onend w else w
  | Event.clear => handleClearText w
  | Event.copy => handleCopyText w
  | Event.download date => handleDownloadText date w

/-- Deliver a list of events in order. -/
def run (w : World) (es : List Event) : World :=
  es.foldl step w

/-- Specification-side definition: the concatenation, in delivery order, of
exactly the texts of the segments whose finality flag is set. -/
def finalConcat : List Segment → String
  | [] => ""
  | s :: rest => (if s.final then s.text else "") ++ finalConcat rest

/-- Specification-side definition: concatenation of `finalConcat` over a
sequence of result batches, in arrival order. -/
def finalBatchConcat : List (List Segment) → String
  | [] => ""
  | b :: bs => finalConcat b ++ finalBatchConcat bs

/-- How many "not supported" toasts have been shown. -/
def unsupportedCount (w : World) : Nat :=
  (w.toasts.filter (fun t => t.title = unsupportedToast.title)).length

/-- The component mounted with support and toggled once: the canonical
`Listening` world (recognition started, transcript empty). -/
def listeningWorld : World :=
  step (mount true) Event.toggle

/-- A listening world that has already accumulated the finalized segment
"hi": used to exercise the copy and download operations concretely. -/
def demoWorld : World :=
  step listeningWorld (Event.result [⟨"hi", true⟩])

theorem run_cons (w : World) (e : Event) (es : List Event) :
    run w (e :: es) = run (step w e) es :=
  rfl

theorem syncEffect_app (w : World) : (syncEffect w).app = w.app := by
  rw [syncEffect]
  split
  · rfl
  · split <;> rfl

theorem syncEffect_toasts (w : World) : (syncEffect w).toasts = w.toasts := by
  rw [syncEffect]
  split
  · rfl
  · split <;> rfl

theorem processResults_loop (l : List Segment) (a b : String) :
    (l.foldl
      (fun acc s =>
        if s.final then (acc.1, acc.2 ++ s.text) else (acc.1 ++ s.text, acc.2))
      (a, b)).2 = b ++ finalConcat l := by
  induction l generalizing a b with
  | nil => simp [finalConcat, String.append_empty]
  | cons s rest ih =>
    cases hf : s.final <;>
      simp [List.foldl, finalConcat, hf, ih, String.append_assoc,
        String.empty_append]

theorem processResults_snd (l : List Segment) :
    (processResults l).2 = finalConcat l := by
  rw [processResults, processResults_loop, String.empty_append]

theorem run_results_transcript (bs : List (List Segment)) (w : World)
    (hrec : w.hasRecognition = true) :
    (run w (bs.map Event.result)).app.transcript
      = w.app.transcript ++ finalBatchConcat bs := by
  induction bs generalizing w with
  | nil => simp [run, finalBatchConcat, String.append_empty]
  | cons b bs ih =>
    have hstep : step w (Event.result b) = onresult b w := by
      simp [step, hrec]
    have hrec2 : (step w (Event.result b)).hasRecognition = true := by
      rw [hstep]; exact hrec
    rw [List.map_cons, run_cons, ih _ hrec2, hstep, onresult,
      processResults_snd, finalBatchConcat]
    simp [String.append_assoc]

theorem step_unsupported (w : World) (e : Event) (h : w.hasRecognition = false) :
    (step w e).hasRecognition = false ∧ (step w e).startCalls = w.startCalls ∧
    unsupportedCount (step w e) = unsupportedCount w := by
  cases e with
  | toggle =>
    refine ⟨?_, ?_, ?_⟩ <;>
      simp [step, handleToggleListening, syncEffect, h, unsupportedCount]
  | result segs => simp [step, h]
  | error code => simp [step, h]
  | ended => simp [step, h]
  | clear => exact ⟨h, rfl, rfl⟩
  | copy =>
    by_cases ht : w.app.transcript = ""
    · simp [step, handleCopyText, ht, h]
    · refine ⟨?_, ?_, ?_⟩ <;>
        simp [step, handleCopyText, ht, unsupportedCount, List.filter_append,
          unsupportedToast, h]
  | download date =>
    by_cases ht : w.app.transcript = ""
    · simp [step, handleDownloadText, ht, h]
    · refine ⟨?_, ?_, ?_⟩ <;>
        simp [step, handleDownloadText, ht, unsupportedCount, h]

theorem run_unsupported (es : List Event) (w : World)
    (h : w.hasRecognition = false) :
    (run w es).hasRecognition = false ∧ (run w es).startCalls = w.startCalls ∧
    unsupportedCount (run w es) = unsupportedCount w := by
  induction es generalizing w with
  | nil => exact ⟨h, rfl, rfl⟩
  | cons e es ih =>
    obtain ⟨h1, h2, h3⟩ := step_unsupported w e h
    obtain ⟨g1, g2, g3⟩ := ih (step w e) h1
    exact ⟨g1, (run_cons w e es ▸ g2).trans h2, (run_cons w e es ▸ g3).trans h3⟩

/-- Claim C1: for every sequence of result notifications delivered while in
the Listening state (starting from an empty transcript), the resulting
Transcript equals the concatenation, in arrival order, of exactly the
segments whose finality flag is set; non-final segments never appear. -/
theorem claim_C1_transcript_is_final_concat (w : World)
    (bs : List (List Segment)) (hrec : w.hasRecognition = true)
    (hlis : w.app.isListening = true) (h0 : w.app.transcript = "") :
    (run w (bs.map Event.result)).app.transcript = finalBatchConcat bs := by
  rw [run_results_transcript bs w hrec, h0, String.empty_append]

/-- Claim C1 witness: the spec scenario — `result([{"Hello ", final},
{"wor", non-final}])` then `result([{"world.", final}])` from the freshly
started Listening world yields the Transcript "Hello world.". -/
theorem claim_C1_witness :
    (listeningWorld.hasRecognition = true ∧
      listeningWorld.app.isListening = true ∧
      listeningWorld.app.transcript = "") ∧
    (run listeningWorld
        ([[⟨"Hello ", true⟩, ⟨"wor", false⟩], [⟨"world.", true⟩]].map
          Event.result)).app.transcript
      = finalBatchConcat [[⟨"Hello ", true⟩, ⟨"wor", false⟩],
          [⟨"world.", true⟩]] ∧
    finalBatchConcat [[⟨"Hello ", true⟩, ⟨"wor", false⟩], [⟨"world.", true⟩]]
      = "Hello world." :=
  ⟨⟨rfl, rfl, rfl⟩,
    claim_C1_transcript_is_final_concat listeningWorld
      [[⟨"Hello ", true⟩, ⟨"wor", false⟩], [⟨"world.", true⟩]] rfl rfl rfl,
    by decide⟩

/-- Claim C2, evaluated on the code at the failing input: after mounting
with a supported capability and toggling once, the component is Listening,
yet delivering ended() leaves the world entirely unchanged — in particular
no start() call is reissued.  The onend handler tests the isListening value
captured by the mount-time effect closure, which is the initial false, so
the auto-restart the spec requires never happens. -/
theorem claim_C2_ended_does_not_restart :
    listeningWorld.app.isListening = true ∧
    step listeningWorld Event.ended = listeningWorld :=
  ⟨rfl, rfl⟩

/-- Claim C3: an error(code) notification forces the listening flag to
false (state Idle) and appends a toast whose message contains the code,
whatever the current state. -/
theorem claim_C3_error_to_idle (w : World) (code : String)
    (hrec : w.hasRecognition = true) :
    (step w (Event.error code)).app.isListening = false ∧
    ∃ pre post, (step w (Event.error code)).toasts
      = w.toasts ++ [{ title := "Error", description := pre ++ code ++ post }] := by
  refine ⟨?_, "Speech recognition error: ", "", ?_⟩ <;>
    by_cases h : w.app.isListening <;>
      simp [step, hrec, onerror, syncEffect_app, syncEffect_toasts, h,
        String.append_empty]

/-- Claim C3 witness: an error "no-speech" in the Listening world moves the
flag to false and surfaces a toast containing the code. -/
theorem claim_C3_witness :
    listeningWorld.hasRecognition = true ∧
    ((step listeningWorld (Event.error "no-speech")).app.isListening = false ∧
      ∃ pre post, (step listeningWorld (Event.error "no-speech")).toasts
        = listeningWorld.toasts ++
          [{ title := "Error", description := pre ++ "no-speech" ++ post }]) :=
  ⟨rfl, claim_C3_error_to_idle listeningWorld "no-speech" rfl⟩

/-- Claim C4 counterexample: with the capability unsupported at
initialization, toggleListening() is not a no-op — the listening flag flips
to true instead of the state remaining Idle. -/
theorem claim_C4_counterexample :
    (step (mount false) Event.toggle).app.isListening = true :=
  rfl

/-- Claim C4 (amended): if the capability reports unsupported at
initialization then, for every subsequent sequence of events,
capability.start() is never invoked and the "not supported" notification
has been shown exactly once; toggleListening() does, however, still flip
the listening flag, so the state does not remain Idle. -/
theorem claim_C4_unsupported_never_starts (es : List Event) :
    (run (mount false) es).startCalls = 0 ∧
    unsupportedCount (run (mount false) es) = 1 := by
  obtain ⟨-, h2, h3⟩ := run_unsupported es (mount false) rfl
  exact ⟨h2.trans rfl, h3.trans (by decide)⟩

/-- Claim C5: in every state, every operation other than clearing leaves
the old Transcript as a prefix of the new one — the Transcript only ever
grows by appending (finalized) text. -/
theorem claim_C5_transcript_monotone (w : World) (e : Event)
    (h : e ≠ Event.clear) :
    ∃ s, (step w e).app.transcript = w.app.transcript ++ s := by
  cases e with
  | toggle =>
    exact ⟨"", by
      rw [step, handleToggleListening, syncEffect_app, String.append_empty]⟩
  | result segs =>
    by_cases hr : w.hasRecognition
    · exact ⟨(processResults segs).2, by simp [step, hr, onresult]⟩
    · exact ⟨"", by simp [step, hr, String.append_empty]⟩
  | error code =>
    refine ⟨"", ?_⟩
    by_cases hr : w.hasRecognition <;> by_cases hl : w.app.isListening <;>
      simp [step, hr, onerror, hl, syncEffect_app, String.append_empty]
  | ended =>
    refine ⟨"", ?_⟩
    by_cases hr : w.hasRecognition <;>
      simp [step, hr, onend, String.append_empty] <;>
      split <;> simp [String.append_empty]
  | clear => exact absurd rfl h
  | copy =>
    refine ⟨"", ?_⟩
    by_cases ht : w.app.transcript = "" <;>
      simp [step, handleCopyText, ht, String.append_empty]
  | download date =>
    refine ⟨"", ?_⟩
    by_cases ht : w.app.transcript = "" <;>
      simp [step, handleDownloadText, ht, String.append_empty]

/-- Claim C5 witness: delivering a result batch to the Listening world
extends the Transcript on the right. -/
theorem claim_C5_witness :
    Event.result [⟨"hi", true⟩] ≠ Event.clear ∧
    ∃ s, (step listeningWorld (Event.result [⟨"hi", true⟩])).app.transcript
      = listeningWorld.app.transcript ++ s :=
  ⟨by decide,
    claim_C5_transcript_monotone listeningWorld (Event.result [⟨"hi", true⟩])
      (by decide)⟩

/-- Claim C6: clearing resets the Transcript to the empty string in every
state, and clearing is idempotent: a second clear changes nothing at all. -/
theorem claim_C6_clear_idempotent (w : World) :
    (step w Event.clear).app.transcript = "" ∧
    step (step w Event.clear) Event.clear = step w Event.clear :=
  ⟨rfl, rfl⟩

/-- Claim C7: starting with one toggle and stopping with the next, with no
result notifications in between, leaves the Transcript exactly as it was
before the first toggle. -/
theorem claim_C7_toggle_symmetry (w : World)
    (h : w.app.isListening = false) :
    (step (step w Event.toggle) Event.toggle).app.transcript
      = w.app.transcript := by
  have ht : ∀ v : World, (step v Event.toggle).app.transcript
      = v.app.transcript := by
    intro v
    rw [step, handleToggleListening, syncEffect_app]
  rw [ht, ht]

/-- Claim C7 witness: toggling twice from the freshly mounted (Idle) world
keeps the empty Transcript. -/
theorem claim_C7_witness :
    (mount true).app.isListening = false ∧
    (step (step (mount true) Event.toggle) Event.toggle).app.transcript
      = (mount true).app.transcript :=
  ⟨rfl, claim_C7_toggle_symmetry (mount true) rfl⟩

/-- Claim C8: the copy operation never changes the component state; it is a
no-op on an empty Transcript, and on a non-empty Transcript it puts the
full Transcript on the clipboard. -/
theorem claim_C8_copy_contract (w : World) :
    (step w Event.copy).app = w.app ∧
    (w.app.transcript = "" → step w Event.copy = w) ∧
    (w.app.transcript ≠ "" →
      (step w Event.copy).clipboard = some w.app.transcript) := by
  by_cases ht : w.app.transcript = "" <;>
    simp [step, handleCopyText, ht]

/-- Claim C8 witness: copying in a world whose Transcript is "hi" places
"hi" on the clipboard. -/
theorem claim_C8_witness :
    demoWorld.app.transcript ≠ "" ∧
    (step demoWorld Event.copy).clipboard = some demoWorld.app.transcript :=
  ⟨by decide, (claim_C8_copy_contract demoWorld).2.2 (by decide)⟩

/-- Claim C9: the download operation never changes the component state; it
is a no-op on an empty Transcript, and on a non-empty Transcript it offers
a file whose suggested name contains the current date and whose contents
are the full Transcript. -/
theorem claim_C9_download_contract (w : World) (date : String) :
    (step w (Event.download date)).app = w.app ∧
    (w.app.transcript = "" → step w (Event.download date) = w) ∧
    (w.app.transcript ≠ "" →
      ∃ pre post, (step w (Event.download date)).downloads
        = w.downloads ++ [(pre ++ date ++ post, w.app.transcript)]) := by
  by_cases ht : w.app.transcript = ""
  · simp [step, handleDownloadText, ht]
  · refine ⟨?_, ?_, fun _ => ⟨"transcript-", ".txt", ?_⟩⟩ <;>
      simp [step, handleDownloadText, ht]

/-- Claim C9 witness: downloading in a world whose Transcript is "hi" adds
a file named around the date "2026-10-12" containing "hi". -/
theorem claim_C9_witness :
    demoWorld.app.transcript ≠ "" ∧
    ∃ pre post,
      (step demoWorld (Event.download "2026-10-12")).downloads
        = demoWorld.downloads ++
          [(pre ++ "2026-10-12" ++ post, demoWorld.app.transcript)] :=
  ⟨by decide,
    (claim_C9_download_contract demoWorld "2026-10-12").2.2 (by decide)⟩

/-- Claim C10: handling an error notification never touches the
accumulated Transcript (nor the clipboard or the downloads), in every
state — it only clears the listening flag and surfaces a toast. -/
theorem claim_C10_error_preserves_transcript (w : World) (code : String) :
    (step w (Event.error code)).app.transcript = w.app.transcript ∧
    (step w (Event.error code)).clipboard = w.clipboard ∧
    (step w (Event.error code)).downloads = w.downloads := by
  by_cases hr : w.hasRecognition <;> by_cases hl : w.app.isListening <;>
    refine ⟨?_, ?_, ?_⟩ <;>
      simp [step, hr, onerror, hl, syncEffect, syncEffect_app]

end WhisperScribe
